import Mathlib

/-!
Shallow embedding of the WarehousePro storage layer (`DatabaseStorage` in the
server storage module) and proofs about its inventory ledger and balance logic.

The relational store is modelled as lists of rows; each table row keeps the
columns the storage layer reads or writes.  Timestamps are drawn from a logical
clock in the `DB` state, incremented on every write, so `createdAt`/`updatedAt`
ordering reflects operation order.  Surrogate ids come from a `nextId` counter.
Numeric columns are modelled as `Int` (quantities may go negative; the store
never floors them).  SQL `ILIKE` is modelled with full wildcard semantics
(`%`, `_`, and the `\` escape), and SQL `NULL` comparison semantics are
modelled by `Option` (a comparison against a missing value is not satisfied).
-/

namespace WarehousePro

/-- Movement direction of a stock-movement ledger entry. -/
inductive Direction where
  | IN
  | OUT
deriving DecidableEq, Repr

/-- A row of the `products` table (the columns the storage layer touches). -/
structure Product where
  id : Nat
  sku : String
  name : String
  cost : Option Int
  reorderPoint : Option Int
  createdAt : Nat
  updatedAt : Nat
  deletedAt : Option Nat
deriving DecidableEq, Repr

/-- A row of the `users` table. -/
structure User where
  id : Nat
  username : String
  updatedAt : Nat
  deletedAt : Option Nat
deriving DecidableEq, Repr

/-- A row of the `product_categories` table. -/
structure Category where
  id : Nat
  name : String
  updatedAt : Nat
  deletedAt : Option Nat
deriving DecidableEq, Repr

/-- A row of the `units_of_measure` table. -/
structure Uom where
  id : String
  name : String
  updatedAt : Nat
  deletedAt : Option Nat
deriving DecidableEq, Repr

/-- A row of the `inventory` (balance) table: one row per (product, warehouse)
pair by intent, keyed by a surrogate id. -/
structure Inventory where
  id : Nat
  productId : Nat
  warehouseId : String
  quantity : Int
  reservedQuantity : Int
  createdAt : Nat
  updatedAt : Nat
deriving DecidableEq, Repr

/-- A row of the `stock_movements` ledger. -/
structure StockMovement where
  id : Nat
  productId : Nat
  warehouseId : String
  direction : Direction
  quantity : Int
  createdAt : Nat
deriving DecidableEq, Repr

/-- A row of the `orders` table. -/
structure Order where
  id : Nat
  status : String
  orderDate : Nat
  updatedAt : Nat
deriving DecidableEq, Repr

/-- A row of the `order_items` table. -/
structure OrderItem where
  id : Nat
  orderId : Nat
  quantity : Int
deriving DecidableEq, Repr

/-- A row of the `warehouses` table. -/
structure Warehouse where
  id : String
  name : String
  updatedAt : Nat
  deletedAt : Option Nat
deriving DecidableEq, Repr

/-- The relational store: one list per table, a surrogate-id counter and a
logical clock for timestamps. -/
structure DB where
  users : List User
  products : List Product
  productCategories : List Category
  unitsOfMeasure : List Uom
  inventory : List Inventory
  stockMovements : List StockMovement
  orders : List Order
  orderItems : List OrderItem
  warehouses : List Warehouse
  nextId : Nat
  clock : Nat
deriving DecidableEq, Repr

/-- The empty store. -/
def emptyDB : DB :=
  { users := [], products := [], productCategories := [], unitsOfMeasure := []
    inventory := [], stockMovements := [], orders := [], orderItems := []
    warehouses := [], nextId := 0, clock := 0 }

/-! ### ILIKE pattern matching

`searchProducts` issues `name ILIKE '%' || query || '%'` (same for `sku`).
Postgres `ILIKE` lowercases both sides and then applies `LIKE` semantics:
`%` matches any sequence, `_` matches one character, `\` escapes the next
pattern character.  `likeMatch pat s` decides whether pattern `pat` matches
the whole string `s`, both given as character lists. -/

/-- Core `LIKE` matcher on character lists, structurally recursive on the
pattern.  The Bool flag records that the previous pattern character was the
escape `\`, so the next pattern character is taken literally; `%` tries every
suffix of the subject. -/
def likeMatchAux : Bool → List Char → List Char → Bool
  | true, [], _ => false
  | false, [], s => s.isEmpty
  | true, p :: ps, s => (s.head? == some p) && likeMatchAux false ps s.tail
  | false, p :: ps, s =>
    if p = '%' then s.tails.any (fun t => likeMatchAux false ps t)
    else if p = '_' then !s.isEmpty && likeMatchAux false ps s.tail
    else if p = '\\' then likeMatchAux true ps s
    else (s.head? == some p) && likeMatchAux false ps s.tail

/-- `LIKE` matching of a whole subject string against a pattern. -/
def likeMatch (pat s : List Char) : Bool := likeMatchAux false pat s

/-- Lowercased character list of a string (Postgres `lower`, ASCII). -/
def lowerChars (s : String) : List Char := s.data.map Char.toLower

/-- Case-insensitive `LIKE`: Postgres `ILIKE`. -/
def ilike (s pat : String) : Bool := likeMatch (lowerChars pat) (lowerChars s)

/-- A pattern character with no special `LIKE` meaning: not a wildcard
(`%`, `_`) and not the escape character (`\`). -/
def plainChar (c : Char) : Bool := !(c = '%' || c = '_' || c = '\\')

/-- `true` when the (lowercased) query contains no `LIKE` wildcard (`%`, `_`)
and no escape character (`\`); for such queries `ILIKE '%q%'` is plain
case-insensitive substring matching. -/
def noWildcards (q : String) : Bool :=
  (lowerChars q).all plainChar

/-- Case-insensitive substring containment, the spec's reading of `search`:
the lowercased needle occurs inside the lowercased haystack. -/
def substrCI (needle hay : String) : Prop :=
  lowerChars needle <:+: lowerChars hay

instance (needle hay : String) : Decidable (substrCI needle hay) :=
  inferInstanceAs (Decidable (_ <:+: _))

/-! ### Sort orders used by the queries -/

/-- `ORDER BY products.name`. -/
def prodByName (a b : Product) : Prop := a.name ≤ b.name

instance : DecidableRel prodByName := fun a b =>
  inferInstanceAs (Decidable (a.name ≤ b.name))

instance : IsTotal Product prodByName := ⟨fun a b => le_total a.name b.name⟩

instance : IsTrans Product prodByName := ⟨fun _ _ _ h1 h2 => le_trans h1 h2⟩

/-- `ORDER BY p.name` on joined (product, balance) pairs. -/
def pairByName (a b : Product × Inventory) : Prop := a.1.name ≤ b.1.name

instance : DecidableRel pairByName := fun a b =>
  inferInstanceAs (Decidable (a.1.name ≤ b.1.name))

instance : IsTotal (Product × Inventory) pairByName :=
  ⟨fun a b => le_total a.1.name b.1.name⟩

instance : IsTrans (Product × Inventory) pairByName :=
  ⟨fun _ _ _ h1 h2 => le_trans h1 h2⟩

/-- `ORDER BY created_at DESC` (newest first) on ledger entries. -/
def movNewestFirst (a b : StockMovement) : Prop := b.createdAt ≤ a.createdAt

instance : DecidableRel movNewestFirst := fun a b =>
  inferInstanceAs (Decidable (b.createdAt ≤ a.createdAt))

instance : IsTotal StockMovement movNewestFirst :=
  ⟨fun a b => (le_total b.createdAt a.createdAt).imp id id⟩

instance : IsTrans StockMovement movNewestFirst :=
  ⟨fun _ _ _ h1 h2 => le_trans h2 h1⟩

/-! ### Products: the Entity Store operations the claims use -/

/-- Insert payload for `createProduct`. -/
structure InsertProduct where
  sku : String
  name : String
  cost : Option Int
  reorderPoint : Option Int
deriving DecidableEq, Repr

/-- `Partial<Product>` update payload: a present field replaces the column. -/
structure ProductUpdate where
  sku : Option String
  name : Option String
  cost : Option (Option Int)
  reorderPoint : Option (Option Int)
deriving DecidableEq, Repr

/-- The merge `{ ...product, updatedAt: new Date() }` performed by
`updateProduct`. -/
def applyProductUpdate (u : ProductUpdate) (now : Nat) (p : Product) : Product :=
  { p with
      sku := u.sku.getD p.sku
      name := u.name.getD p.name
      cost := u.cost.getD p.cost
      reorderPoint := u.reorderPoint.getD p.reorderPoint
      updatedAt := now }

/-- `getProduct`: `SELECT ... WHERE id = ? AND deleted_at IS NULL LIMIT 1`. -/
def getProduct (db : DB) (id : Nat) : Option Product :=
  ((db.products.filter (fun p => p.id == id && p.deletedAt.isNone)).head?)

/-- `createProduct`: insert, generating id and timestamps. -/
def createProduct (db : DB) (v : InsertProduct) : DB × Product :=
  let row : Product :=
    { id := db.nextId, sku := v.sku, name := v.name, cost := v.cost
      reorderPoint := v.reorderPoint, createdAt := db.clock
      updatedAt := db.clock, deletedAt := none }
  ({ db with products := db.products ++ [row], nextId := db.nextId + 1
             clock := db.clock + 1 }, row)

/-- `updateProduct`: `UPDATE products SET ..., updated_at = now() WHERE id = ?
RETURNING *` — note: no `deleted_at IS NULL` filter. -/
def updateProduct (db : DB) (id : Nat) (u : ProductUpdate) : DB × Option Product :=
  let rows := db.products.map
    (fun p => if p.id == id then applyProductUpdate u db.clock p else p)
  ({ db with products := rows, clock := db.clock + 1 },
   (rows.filter (fun p => p.id == id)).head?)

/-- `deleteProduct` (soft delete): `UPDATE products SET deleted_at = now()
WHERE id = ? RETURNING *`; reports whether a row was affected. -/
def deleteProduct (db : DB) (id : Nat) : DB × Bool :=
  let rows := db.products.map
    (fun p => if p.id == id then { p with deletedAt := some db.clock } else p)
  ({ db with products := rows, clock := db.clock + 1 },
   db.products.any (fun p => p.id == id))

/-- `getAllProducts`: non-deleted products ordered by name. -/
def getAllProducts (db : DB) : List Product :=
  List.insertionSort prodByName (db.products.filter (fun p => p.deletedAt.isNone))

/-- `searchProducts`: non-deleted products whose name or SKU matches
`ILIKE '%' || query || '%'`, ordered by name. -/
def searchProducts (db : DB) (query : String) : List Product :=
  List.insertionSort prodByName
    (db.products.filter (fun p =>
      p.deletedAt.isNone &&
        (ilike p.name ("%" ++ query ++ "%") || ilike p.sku ("%" ++ query ++ "%"))))

/-! ### Inventory balance accessors -/

/-- Insert payload for `createInventory`. -/
structure InsertInventory where
  productId : Nat
  warehouseId : String
  quantity : Int
  reservedQuantity : Int
deriving DecidableEq, Repr

/-- `Partial<Inventory>` update payload. -/
structure InventoryUpdate where
  quantity : Option Int
  reservedQuantity : Option Int
deriving DecidableEq, Repr

/-- The merge `{ ...inv, updatedAt: new Date() }` performed by
`updateInventory`. -/
def applyInventoryUpdate (u : InventoryUpdate) (now : Nat) (i : Inventory) : Inventory :=
  { i with
      quantity := u.quantity.getD i.quantity
      reservedQuantity := u.reservedQuantity.getD i.reservedQuantity
      updatedAt := now }

/-- `createInventory`: insert a balance row, generating id and timestamps. -/
def createInventory (db : DB) (v : InsertInventory) : DB × Inventory :=
  let row : Inventory :=
    { id := db.nextId, productId := v.productId, warehouseId := v.warehouseId
      quantity := v.quantity, reservedQuantity := v.reservedQuantity
      createdAt := db.clock, updatedAt := db.clock }
  ({ db with inventory := db.inventory ++ [row], nextId := db.nextId + 1
             clock := db.clock + 1 }, row)

/-- `updateInventory`: `UPDATE inventory SET ..., updated_at = now()
WHERE id = ? RETURNING *`. -/
def updateInventory (db : DB) (id : Nat) (u : InventoryUpdate) : DB × Option Inventory :=
  let rows := db.inventory.map
    (fun i => if i.id == id then applyInventoryUpdate u db.clock i else i)
  ({ db with inventory := rows, clock := db.clock + 1 },
   (rows.filter (fun i => i.id == id)).head?)

/-- `deleteInventory` (hard delete). -/
def deleteInventory (db : DB) (id : Nat) : DB × Bool :=
  ({ db with inventory := db.inventory.filter (fun i => !(i.id == id))
             clock := db.clock + 1 },
   (db.inventory.filter (fun i => i.id == id)).length > 0)

/-- `getInventoryByProductAndWarehouse`: `SELECT ... WHERE product_id = ?
AND warehouse_id = ? LIMIT 1`. -/
def getInventoryByProductAndWarehouse (db : DB) (productId : Nat)
    (warehouseId : String) : Option Inventory :=
  ((db.inventory.filter
      (fun i => i.productId == productId && i.warehouseId == warehouseId)).head?)

/-! ### Stock movements: the ledger and the applier -/

/-- Insert payload for `createStockMovement` (`recordMovement`). -/
structure InsertStockMovement where
  productId : Nat
  warehouseId : String
  direction : Direction
  quantity : Int
deriving DecidableEq, Repr

/-- The ledger entry built by `createStockMovement` from the insert payload,
with generated id and creation timestamp. -/
def movementEntry (db : DB) (m : InsertStockMovement) : StockMovement :=
  { id := db.nextId, productId := m.productId, warehouseId := m.warehouseId
    direction := m.direction, quantity := m.quantity, createdAt := db.clock }

/-- The first step of `createStockMovement`: the insert into the ledger. -/
def appendLedger (db : DB) (m : InsertStockMovement) : DB :=
  { db with stockMovements := db.stockMovements ++ [movementEntry db m]
            nextId := db.nextId + 1, clock := db.clock + 1 }

/-- `createStockMovement`: append the ledger entry, then locate the balance
row for the (product, warehouse) pair and apply the signed quantity change;
create the balance only for an IN movement when none exists; an OUT movement
against a missing balance leaves the balance table untouched.  Returns the
created ledger entry (not the balance). -/
def createStockMovement (db : DB) (m : InsertStockMovement) : DB × StockMovement :=
  match getInventoryByProductAndWarehouse (appendLedger db m)
      m.productId m.warehouseId with
  | some inv =>
      ((updateInventory (appendLedger db m) inv.id
          { quantity := some (inv.quantity +
              (if m.direction = Direction.IN then m.quantity else -m.quantity))
            reservedQuantity := none }).1, movementEntry db m)
  | none =>
      if m.direction = Direction.IN then
        ((createInventory (appendLedger db m)
            { productId := m.productId, warehouseId := m.warehouseId
              quantity := m.quantity, reservedQuantity := 0 }).1,
         movementEntry db m)
      else (appendLedger db m, movementEntry db m)

/-- `getStockMovementsByProduct`: ledger entries of a product, newest first. -/
def getStockMovementsByProduct (db : DB) (productId : Nat) : List StockMovement :=
  List.insertionSort movNewestFirst
    (db.stockMovements.filter (fun s => s.productId == productId))

/-- `getStockMovementsByWarehouse`: ledger entries of a warehouse, newest
first. -/
def getStockMovementsByWarehouse (db : DB) (warehouseId : String) : List StockMovement :=
  List.insertionSort movNewestFirst
    (db.stockMovements.filter (fun s => s.warehouseId == warehouseId))

/-- `getRecentStockMovements(limit)`: newest entries first, at most `limit`. -/
def getRecentStockMovements (db : DB) (limit : Nat) : List StockMovement :=
  (List.insertionSort movNewestFirst db.stockMovements).take limit

/-- `getRecentStockMovements()` with the limit omitted: the source defaults
the parameter to 10. -/
def getRecentStockMovementsDefault (db : DB) : List StockMovement :=
  getRecentStockMovements db 10

/-! ### Peer entities: users, categories, units of measure, orders,
order items, warehouses.  Needed to state the ledger-immutability claim
over the whole mutating surface of the storage contract. -/

/-- Insert payload for `createUser`. -/
structure InsertUser where
  username : String
deriving DecidableEq, Repr

/-- `Partial<User>` update payload. -/
structure UserUpdate where
  username : Option String
deriving DecidableEq, Repr

/-- `createUser`. -/
def createUser (db : DB) (v : InsertUser) : DB × User :=
  let row : User :=
    { id := db.nextId, username := v.username, updatedAt := db.clock
      deletedAt := none }
  ({ db with users := db.users ++ [row], nextId := db.nextId + 1
             clock := db.clock + 1 }, row)

/-- `updateUser` (merge, stamp `updatedAt`). -/
def updateUser (db : DB) (id : Nat) (u : UserUpdate) : DB × Option User :=
  let rows := db.users.map (fun x =>
    if x.id == id then
      { x with username := u.username.getD x.username, updatedAt := db.clock }
    else x)
  ({ db with users := rows, clock := db.clock + 1 },
   (rows.filter (fun x => x.id == id)).head?)

/-- `deleteUser` (soft delete). -/
def deleteUser (db : DB) (id : Nat) : DB × Bool :=
  let rows := db.users.map (fun x =>
    if x.id == id then { x with deletedAt := some db.clock } else x)
  ({ db with users := rows, clock := db.clock + 1 },
   db.users.any (fun x => x.id == id))

/-- Insert payload for `createProductCategory`. -/
structure InsertCategory where
  name : String
deriving DecidableEq, Repr

/-- `Partial<ProductCategory>` update payload. -/
structure CategoryUpdate where
  name : Option String
deriving DecidableEq, Repr

/-- `createProductCategory`. -/
def createProductCategory (db : DB) (v : InsertCategory) : DB × Category :=
  let row : Category :=
    { id := db.nextId, name := v.name, updatedAt := db.clock, deletedAt := none }
  ({ db with productCategories := db.productCategories ++ [row]
             nextId := db.nextId + 1, clock := db.clock + 1 }, row)

/-- `updateProductCategory`. -/
def updateProductCategory (db : DB) (id : Nat) (u : CategoryUpdate) :
    DB × Option Category :=
  let rows := db.productCategories.map (fun x =>
    if x.id == id then
      { x with name := u.name.getD x.name, updatedAt := db.clock }
    else x)
  ({ db with productCategories := rows, clock := db.clock + 1 },
   (rows.filter (fun x => x.id == id)).head?)

/-- `deleteProductCategory` (soft delete). -/
def deleteProductCategory (db : DB) (id : Nat) : DB × Bool :=
  let rows := db.productCategories.map (fun x =>
    if x.id == id then { x with deletedAt := some db.clock } else x)
  ({ db with productCategories := rows, clock := db.clock + 1 },
   db.productCategories.any (fun x => x.id == id))

/-- Insert payload for `createUnitOfMeasure`. -/
structure InsertUom where
  id : String
  name : String
deriving DecidableEq, Repr

/-- `Partial<UnitOfMeasure>` update payload. -/
structure UomUpdate where
  name : Option String
deriving DecidableEq, Repr

/-- `createUnitOfMeasure` (string primary key supplied by the caller). -/
def createUnitOfMeasure (db : DB) (v : InsertUom) : DB × Uom :=
  let row : Uom :=
    { id := v.id, name := v.name, updatedAt := db.clock, deletedAt := none }
  ({ db with unitsOfMeasure := db.unitsOfMeasure ++ [row]
             clock := db.clock + 1 }, row)

/-- `updateUnitOfMeasure`. -/
def updateUnitOfMeasure (db : DB) (id : String) (u : UomUpdate) :
    DB × Option Uom :=
  let rows := db.unitsOfMeasure.map (fun x =>
    if x.id == id then
      { x with name := u.name.getD x.name, updatedAt := db.clock }
    else x)
  ({ db with unitsOfMeasure := rows, clock := db.clock + 1 },
   (rows.filter (fun x => x.id == id)).head?)

/-- `deleteUnitOfMeasure` (soft delete). -/
def deleteUnitOfMeasure (db : DB) (id : String) : DB × Bool :=
  let rows := db.unitsOfMeasure.map (fun x =>
    if x.id == id then { x with deletedAt := some db.clock } else x)
  ({ db with unitsOfMeasure := rows, clock := db.clock + 1 },
   db.unitsOfMeasure.any (fun x => x.id == id))

/-- Insert payload for `createOrder`. -/
structure InsertOrder where
  status : String
  orderDate : Nat
deriving DecidableEq, Repr

/-- `Partial<Order>` update payload. -/
structure OrderUpdate where
  status : Option String
deriving DecidableEq, Repr

/-- `createOrder`. -/
def createOrder (db : DB) (v : InsertOrder) : DB × Order :=
  let row : Order :=
    { id := db.nextId, status := v.status, orderDate := v.orderDate
      updatedAt := db.clock }
  ({ db with orders := db.orders ++ [row], nextId := db.nextId + 1
             clock := db.clock + 1 }, row)

/-- `updateOrder`. -/
def updateOrder (db : DB) (id : Nat) (u : OrderUpdate) : DB × Option Order :=
  let rows := db.orders.map (fun x =>
    if x.id == id then
      { x with status := u.status.getD x.status, updatedAt := db.clock }
    else x)
  ({ db with orders := rows, clock := db.clock + 1 },
   (rows.filter (fun x => x.id == id)).head?)

/-- `deleteOrder` (hard delete, removing the order's items first). -/
def deleteOrder (db : DB) (id : Nat) : DB × Bool :=
  ({ db with orderItems := db.orderItems.filter (fun it => !(it.orderId == id))
             orders := db.orders.filter (fun o => !(o.id == id))
             clock := db.clock + 1 },
   (db.orders.filter (fun o => o.id == id)).length > 0)

/-- Insert payload for `createOrderItem`. -/
structure InsertOrderItem where
  orderId : Nat
  quantity : Int
deriving DecidableEq, Repr

/-- `Partial<OrderItem>` update payload. -/
structure OrderItemUpdate where
  quantity : Option Int
deriving DecidableEq, Repr

/-- `createOrderItem`. -/
def createOrderItem (db : DB) (v : InsertOrderItem) : DB × OrderItem :=
  let row : OrderItem :=
    { id := db.nextId, orderId := v.orderId, quantity := v.quantity }
  ({ db with orderItems := db.orderItems ++ [row], nextId := db.nextId + 1
             clock := db.clock + 1 }, row)

/-- `updateOrderItem` (the source stamps no timestamp here). -/
def updateOrderItem (db : DB) (id : Nat) (u : OrderItemUpdate) :
    DB × Option OrderItem :=
  let rows := db.orderItems.map (fun x =>
    if x.id == id then { x with quantity := u.quantity.getD x.quantity } else x)
  ({ db with orderItems := rows, clock := db.clock + 1 },
   (rows.filter (fun x => x.id == id)).head?)

/-- `deleteOrderItem` (hard delete). -/
def deleteOrderItem (db : DB) (id : Nat) : DB × Bool :=
  ({ db with orderItems := db.orderItems.filter (fun x => !(x.id == id))
             clock := db.clock + 1 },
   (db.orderItems.filter (fun x => x.id == id)).length > 0)

/-- Insert payload for `createWarehouse`; `id = none` means the source
generates a random uppercase token, modelled as the extra `genId` argument. -/
structure InsertWarehouse where
  id : Option String
  name : String
deriving DecidableEq, Repr

/-- `Partial<Warehouse>` update payload. -/
structure WarehouseUpdate where
  name : Option String
deriving DecidableEq, Repr

/-- `createWarehouse`: uses the supplied id, or the generated token. -/
def createWarehouse (db : DB) (v : InsertWarehouse) (genId : String) :
    DB × Warehouse :=
  let row : Warehouse :=
    { id := v.id.getD genId, name := v.name, updatedAt := db.clock
      deletedAt := none }
  ({ db with warehouses := db.warehouses ++ [row], clock := db.clock + 1 }, row)

/-- `updateWarehouse`. -/
def updateWarehouse (db : DB) (id : String) (u : WarehouseUpdate) :
    DB × Option Warehouse :=
  let rows := db.warehouses.map (fun x =>
    if x.id == id then
      { x with name := u.name.getD x.name, updatedAt := db.clock }
    else x)
  ({ db with warehouses := rows, clock := db.clock + 1 },
   (rows.filter (fun x => x.id == id)).head?)

/-- `deleteWarehouse` (soft delete). -/
def deleteWarehouse (db : DB) (id : String) : DB × Bool :=
  let rows := db.warehouses.map (fun x =>
    if x.id == id then { x with deletedAt := some db.clock } else x)
  ({ db with warehouses := rows, clock := db.clock + 1 },
   db.warehouses.any (fun x => x.id == id))

/-! ### Aggregate query layer -/

/-- The join rows of `getInventoryValue`: every (balance, product) pair with
matching product id and a non-deleted product. -/
def invValueRows (db : DB) : List (Inventory × Product) :=
  db.inventory.flatMap (fun i =>
    (db.products.filter (fun p => p.id == i.productId && p.deletedAt.isNone)).map
      (fun p => (i, p)))

/-- `getInventoryValue`: `SELECT SUM(i.quantity * p.cost) ... WHERE
p.deleted_at IS NULL`; SQL `SUM` skips `NULL` terms and the `|| 0` fallback
turns an empty (`NULL`) sum into 0. -/
def getInventoryValue (db : DB) : Int :=
  ((invValueRows db).map (fun ip =>
    match ip.2.cost with
    | none => 0
    | some c => ip.1.quantity * c)).sum

/-- Reading of the claim: the total value is the sum over balance rows of
`quantity * cost` of *the* (unique, non-deleted) product the row refers to;
rows whose product is missing or soft-deleted contribute nothing. -/
def inventoryValueSpec (db : DB) : Int :=
  (db.inventory.map (fun i =>
    match getProduct db i.productId with
    | none => 0
    | some p => i.quantity * p.cost.getD 0)).sum

/-- The low-stock join condition on a (product, balance) pair:
`i.quantity <= p.reorder_point` under SQL `NULL` semantics — a missing
reorder point satisfies nothing. -/
def lowStockCond (p : Product) (i : Inventory) : Bool :=
  match p.reorderPoint with
  | none => false
  | some r => i.quantity ≤ r

/-- The rows of the low-stock query before ordering: the join of non-deleted
products with their balance rows, filtered by the reorder comparison. -/
def lowStockRows (db : DB) : List (Product × Inventory) :=
  db.products.flatMap (fun p =>
    if p.deletedAt.isNone then
      (db.inventory.filter (fun i => i.productId == p.id && lowStockCond p i)).map
        (fun i => (p, i))
    else [])

/-- The product object rebuilt by `getLowStockItems` from the flat joined
row: `SELECT p.*, i.*` yields one row object per pair in which the duplicate
column names `id`, `created_at` and `updated_at` collapse to the
inventory's (later-listed) values, so the rebuilt product carries the
balance row's id and timestamps; every other product column is its own. -/
def rowProduct (p : Product) (i : Inventory) : Product :=
  { p with id := i.id, createdAt := i.createdAt, updatedAt := i.updatedAt }

/-- `getLowStockItems`: the filtered join ordered by product name, each flat
row then split into a product object (with the colliding columns taken from
the inventory row) and the inventory object. -/
def getLowStockItems (db : DB) : List (Product × Inventory) :=
  (List.insertionSort pairByName (lowStockRows db)).map
    (fun pr => (rowProduct pr.1 pr.2, pr.2))

/-! ### Sequences of operations -/

/-- One mutating operation of the public storage contract. -/
inductive Op where
  | createUser (v : InsertUser)
  | updateUser (id : Nat) (u : UserUpdate)
  | deleteUser (id : Nat)
  | createProduct (v : InsertProduct)
  | updateProduct (id : Nat) (u : ProductUpdate)
  | deleteProduct (id : Nat)
  | createProductCategory (v : InsertCategory)
  | updateProductCategory (id : Nat) (u : CategoryUpdate)
  | deleteProductCategory (id : Nat)
  | createUnitOfMeasure (v : InsertUom)
  | updateUnitOfMeasure (id : String) (u : UomUpdate)
  | deleteUnitOfMeasure (id : String)
  | createInventory (v : InsertInventory)
  | updateInventory (id : Nat) (u : InventoryUpdate)
  | deleteInventory (id : Nat)
  | createStockMovement (m : InsertStockMovement)
  | createOrder (v : InsertOrder)
  | updateOrder (id : Nat) (u : OrderUpdate)
  | deleteOrder (id : Nat)
  | createOrderItem (v : InsertOrderItem)
  | updateOrderItem (id : Nat) (u : OrderItemUpdate)
  | deleteOrderItem (id : Nat)
  | createWarehouse (v : InsertWarehouse) (genId : String)
  | updateWarehouse (id : String) (u : WarehouseUpdate)
  | deleteWarehouse (id : String)
deriving DecidableEq, Repr

/-- The state transformation of one public operation. -/
def stepOp (db : DB) : Op → DB
  | Op.createUser v => (createUser db v).1
  | Op.updateUser id u => (updateUser db id u).1
  | Op.deleteUser id => (deleteUser db id).1
  | Op.createProduct v => (createProduct db v).1
  | Op.updateProduct id u => (updateProduct db id u).1
  | Op.deleteProduct id => (deleteProduct db id).1
  | Op.createProductCategory v => (createProductCategory db v).1
  | Op.updateProductCategory id u => (updateProductCategory db id u).1
  | Op.deleteProductCategory id => (deleteProductCategory db id).1
  | Op.createUnitOfMeasure v => (createUnitOfMeasure db v).1
  | Op.updateUnitOfMeasure id u => (updateUnitOfMeasure db id u).1
  | Op.deleteUnitOfMeasure id => (deleteUnitOfMeasure db id).1
  | Op.createInventory v => (createInventory db v).1
  | Op.updateInventory id u => (updateInventory db id u).1
  | Op.deleteInventory id => (deleteInventory db id).1
  | Op.createStockMovement m => (createStockMovement db m).1
  | Op.createOrder v => (createOrder db v).1
  | Op.updateOrder id u => (updateOrder db id u).1
  | Op.deleteOrder id => (deleteOrder db id).1
  | Op.createOrderItem v => (createOrderItem db v).1
  | Op.updateOrderItem id u => (updateOrderItem db id u).1
  | Op.deleteOrderItem id => (deleteOrderItem db id).1
  | Op.createWarehouse v genId => (createWarehouse db v genId).1
  | Op.updateWarehouse id u => (updateWarehouse db id u).1
  | Op.deleteWarehouse id => (deleteWarehouse db id).1

/-- Run a sequence of public operations. -/
def applyOps (db : DB) : List Op → DB
  | [] => db
  | op :: rest => applyOps (stepOp db op) rest

/-- Whether an operation is the ledger append (`recordMovement`). -/
def Op.isCreateStockMovement : Op → Bool
  | Op.createStockMovement _ => true
  | _ => false

/-- Run a sequence of `recordMovement` calls for one (product, warehouse)
pair, given as (direction, quantity) pairs. -/
def applyMovements (db : DB) (pid : Nat) (wid : String) :
    List (Direction × Int) → DB
  | [] => db
  | (d, q) :: rest =>
      applyMovements
        (createStockMovement db
          { productId := pid, warehouseId := wid, direction := d
            quantity := q }).1 pid wid rest

/-- Sum of the quantities of the IN movements of a sequence. -/
def sumIN (ms : List (Direction × Int)) : Int :=
  ((ms.filter (fun m => m.1 == Direction.IN)).map (fun m => m.2)).sum

/-- Sum of the quantities of the OUT movements of a sequence. -/
def sumOUT (ms : List (Direction × Int)) : Int :=
  ((ms.filter (fun m => m.1 == Direction.OUT)).map (fun m => m.2)).sum

/-! ### Concrete stores used to witness the theorems -/

/-- A sample product: "ABC Widget", SKU "X-100", cost 25, reorder point 10. -/
def wProduct : Product :=
  { id := 1, sku := "X-100", name := "ABC Widget", cost := some 25
    reorderPoint := some 10, createdAt := 0, updatedAt := 0, deletedAt := none }

/-- A soft-deleted product (deletion timestamp set). -/
def wDeletedProduct : Product :=
  { id := 2, sku := "Y-200", name := "Old Gadget", cost := some 100
    reorderPoint := some 3, createdAt := 0, updatedAt := 0, deletedAt := some 4 }

/-- A product whose reorder point is unset (SQL `NULL`). -/
def wNullReorderProduct : Product :=
  { id := 3, sku := "Z-300", name := "No Threshold", cost := some 1
    reorderPoint := none, createdAt := 0, updatedAt := 0, deletedAt := none }

/-- A balance row of 7 units of `wProduct` in warehouse W1. -/
def wBalance7 : Inventory :=
  { id := 10, productId := 1, warehouseId := "W1", quantity := 7
    reservedQuantity := 0, createdAt := 0, updatedAt := 0 }

/-- A balance row of 15 units of `wProduct` in warehouse W1. -/
def wBalance15 : Inventory :=
  { id := 10, productId := 1, warehouseId := "W1", quantity := 15
    reservedQuantity := 0, createdAt := 0, updatedAt := 0 }

/-- A balance row of 4 units of `wDeletedProduct` in warehouse W1. -/
def wBalanceDeleted : Inventory :=
  { id := 11, productId := 2, warehouseId := "W1", quantity := 4
    reservedQuantity := 0, createdAt := 0, updatedAt := 0 }

/-- A balance row of -100 units of `wNullReorderProduct` in warehouse W1. -/
def wBalanceNull : Inventory :=
  { id := 12, productId := 3, warehouseId := "W1", quantity := -100
    reservedQuantity := 0, createdAt := 0, updatedAt := 0 }

/-- Store with one live product; used for the search witnesses. -/
def wdbSearch : DB :=
  { emptyDB with products := [wProduct], nextId := 20, clock := 5 }

/-- Store with a live and a soft-deleted product and their balances. -/
def wdbAgg : DB :=
  { emptyDB with products := [wProduct, wDeletedProduct]
                 inventory := [wBalance7, wBalanceDeleted]
                 nextId := 20, clock := 5 }

/-- Store where `wProduct` holds 7 units (at or below its reorder point 10)
and a null-reorder-point product holds -100 units. -/
def wdbLow : DB :=
  { emptyDB with products := [wProduct, wNullReorderProduct]
                 inventory := [wBalance7, wBalanceNull]
                 nextId := 20, clock := 5 }

/-- `wdbLow` after an IN movement raised the quantity of `wProduct` to 15. -/
def wdbHigh : DB :=
  { emptyDB with products := [wProduct, wNullReorderProduct]
                 inventory := [wBalance15, wBalanceNull]
                 nextId := 20, clock := 5 }

/-- Store containing only a soft-deleted product. -/
def wdbDeleted : DB :=
  { emptyDB with products := [wDeletedProduct], nextId := 20, clock := 5 }

/-- A sample update payload renaming a product. -/
def wRename : ProductUpdate :=
  { sku := none, name := some "Renamed", cost := none, reorderPoint := none }

/-- An operation sequence that contains a `recordMovement`. -/
def wOpsMove : List Op :=
  [Op.deleteProduct 1,
   Op.createStockMovement
     { productId := 1, warehouseId := "W1", direction := Direction.IN
       quantity := 5 }]

/-- An operation sequence with no `recordMovement`. -/
def wOpsNoMove : List Op :=
  [Op.deleteProduct 1,
   Op.updateInventory 10 { quantity := some 3, reservedQuantity := none },
   Op.deleteOrder 7]

/-! ## Helper lemmas: `LIKE` matching against wildcard-free queries -/

theorem likeMatch_pct_eq (ps : List Char) (s : List Char) :
    likeMatch ('%' :: ps) s = s.tails.any (fun t => likeMatch ps t) := by
  unfold likeMatch
  simp only [likeMatchAux]
  simp

theorem likeMatch_lit (c : Char) (ps : List Char) (s : List Char)
    (h1 : ¬c = '%') (h2 : ¬c = '_') (h3 : ¬c = '\\') :
    likeMatch (c :: ps) s = ((s.head? == some c) && likeMatch ps s.tail) := by
  unfold likeMatch
  simp only [likeMatchAux]
  rw [if_neg h1, if_neg h2, if_neg h3]

theorem likeMatch_pct (ps : List Char) (s : List Char) :
    likeMatch ('%' :: ps) s = true ↔ ∃ t, t <:+ s ∧ likeMatch ps t = true := by
  rw [likeMatch_pct_eq, List.any_eq_true]
  simp only [List.mem_tails]

theorem likeMatch_pct_nil (s : List Char) : likeMatch ['%'] s = true := by
  rw [likeMatch_pct]
  exact ⟨[], List.nil_suffix, rfl⟩

theorem plainChar_split (c : Char) (hc : plainChar c = true) :
    ¬c = '%' ∧ ¬c = '_' ∧ ¬c = '\\' := by
  have hc2 : (¬c = '%' ∧ ¬c = '_') ∧ ¬c = '\\' := by
    simpa [plainChar] using hc
  exact ⟨hc2.1.1, hc2.1.2, hc2.2⟩

theorem likeMatch_literal (q : List Char) (hq : q.all plainChar = true)
    (ps : List Char) :
    ∀ s, likeMatch (q ++ ps) s = true ↔ ∃ t, s = q ++ t ∧ likeMatch ps t = true := by
  induction q with
  | nil =>
    intro s
    simp
  | cons c q ih =>
    intro s
    simp only [List.all_cons, Bool.and_eq_true] at hq
    obtain ⟨hc, hq2⟩ := hq
    obtain ⟨h1, h2, h3⟩ := plainChar_split c hc
    cases s with
    | nil =>
      rw [List.cons_append, likeMatch_lit c _ [] h1 h2 h3]
      simp
    | cons d ds =>
      rw [List.cons_append, likeMatch_lit c _ (d :: ds) h1 h2 h3]
      simp only [List.head?_cons, List.tail_cons, Bool.and_eq_true, beq_iff_eq,
        Option.some.injEq, ih hq2 ds]
      constructor
      · rintro ⟨rfl, t, rfl, ht⟩
        exact ⟨t, rfl, ht⟩
      · rintro ⟨t, he, ht⟩
        rw [List.cons_append] at he
        injection he with he1 he2
        subst he1
        exact ⟨rfl, t, he2, ht⟩

theorem infix_iff_append_suffix (q s : List Char) :
    q <:+: s ↔ ∃ t, q ++ t <:+ s := by
  constructor
  · rintro ⟨u, v, rfl⟩
    exact ⟨v, u, by simp⟩
  · rintro ⟨t, u, rfl⟩
    exact ⟨u, t, by simp⟩

theorem ilike_substring (hay q : String) (hq : noWildcards q = true) :
    ilike hay ("%" ++ q ++ "%") = true ↔ substrCI q hay := by
  have hpat : lowerChars ("%" ++ q ++ "%") = '%' :: (lowerChars q ++ ['%']) := by
    simp [lowerChars, String.data_append]
  rw [ilike, hpat, likeMatch_pct, substrCI, infix_iff_append_suffix]
  constructor
  · rintro ⟨t, hts, ht⟩
    obtain ⟨r, rfl, -⟩ := (likeMatch_literal (lowerChars q) hq ['%'] t).mp ht
    exact ⟨r, hts⟩
  · rintro ⟨r, hrs⟩
    exact ⟨lowerChars q ++ r, hrs,
      (likeMatch_literal (lowerChars q) hq ['%'] _).mpr
        ⟨r, rfl, likeMatch_pct_nil r⟩⟩

/-! ## Helper lemmas: membership characterizations of the queries -/

theorem mem_searchProducts (db : DB) (q : String) (p : Product)
    (hq : noWildcards q = true) :
    p ∈ searchProducts db q ↔
      p ∈ db.products ∧ p.deletedAt = none ∧ (substrCI q p.name ∨ substrCI q p.sku) := by
  unfold searchProducts
  rw [List.mem_insertionSort, List.mem_filter]
  simp only [Bool.and_eq_true, Bool.or_eq_true, Option.isNone_iff_eq_none,
    and_assoc]
  constructor
  · rintro ⟨hp, hd, hm⟩
    refine ⟨hp, hd, ?_⟩
    rcases hm with hm | hm
    · exact Or.inl ((ilike_substring p.name q hq).mp hm)
    · exact Or.inr ((ilike_substring p.sku q hq).mp hm)
  · rintro ⟨hp, hd, hm⟩
    refine ⟨hp, hd, ?_⟩
    rcases hm with hm | hm
    · exact Or.inl ((ilike_substring p.name q hq).mpr hm)
    · exact Or.inr ((ilike_substring p.sku q hq).mpr hm)

theorem lowStockCond_iff (p : Product) (i : Inventory) :
    lowStockCond p i = true ↔ ∃ r : Int, p.reorderPoint = some r ∧ i.quantity ≤ r := by
  unfold lowStockCond
  cases hr : p.reorderPoint with
  | none => simp
  | some r => simp

theorem mem_lowStockRows (db : DB) (pr : Product × Inventory) :
    pr ∈ lowStockRows db ↔
      pr.1 ∈ db.products ∧ pr.2 ∈ db.inventory ∧ pr.2.productId = pr.1.id ∧
        pr.1.deletedAt = none ∧
        ∃ r : Int, pr.1.reorderPoint = some r ∧ pr.2.quantity ≤ r := by
  obtain ⟨p, i⟩ := pr
  unfold lowStockRows
  rw [List.mem_flatMap]
  constructor
  · rintro ⟨p2, hp2, hmem⟩
    by_cases hd : p2.deletedAt.isNone
    · rw [if_pos hd, List.mem_map] at hmem
      obtain ⟨i2, hi2, heq⟩ := hmem
      rw [List.mem_filter, Bool.and_eq_true, beq_iff_eq] at hi2
      obtain ⟨hi2m, hpid, hc⟩ := hi2
      injection heq with he1 he2
      subst he1
      subst he2
      exact ⟨hp2, hi2m, hpid, Option.isNone_iff_eq_none.mp hd,
        (lowStockCond_iff _ _).mp hc⟩
    · rw [if_neg hd] at hmem
      exact absurd hmem (List.not_mem_nil _)
  · rintro ⟨hp, hi, hpid, hd, hr⟩
    refine ⟨p, hp, ?_⟩
    rw [if_pos (Option.isNone_iff_eq_none.mpr hd), List.mem_map]
    refine ⟨i, ?_, rfl⟩
    rw [List.mem_filter, Bool.and_eq_true, beq_iff_eq]
    exact ⟨hi, hpid, (lowStockCond_iff _ _).mpr hr⟩

theorem mem_getLowStockItems (db : DB) (pr : Product × Inventory) :
    pr ∈ getLowStockItems db ↔
      ∃ p : Product, p ∈ db.products ∧ pr.2 ∈ db.inventory ∧
        pr.2.productId = p.id ∧ p.deletedAt = none ∧
        (∃ r : Int, p.reorderPoint = some r ∧ pr.2.quantity ≤ r) ∧
        pr.1 = rowProduct p pr.2 := by
  unfold getLowStockItems
  rw [List.mem_map]
  constructor
  · rintro ⟨q, hq, hpr⟩
    rw [List.mem_insertionSort] at hq
    obtain ⟨hp, hi, hpid, hd, hr⟩ := (mem_lowStockRows db q).mp hq
    subst hpr
    exact ⟨q.1, hp, hi, hpid, hd, hr, rfl⟩
  · rintro ⟨p, hp, hi, hpid, hd, hr, hpr⟩
    refine ⟨(p, pr.2), ?_, ?_⟩
    · rw [List.mem_insertionSort]
      exact (mem_lowStockRows db (p, pr.2)).mpr ⟨hp, hi, hpid, hd, hr⟩
    · show (rowProduct p pr.2, pr.2) = pr
      rw [← hpr]

/-! ## Helper lemmas: lists, lookups and sums -/

theorem head_filter_eq_some {α : Type} (l : List α) (f : α → Bool) (a : α)
    (hmem : ∃ x, x ∈ l ∧ f x = true) (hall : ∀ x, x ∈ l → f x = true → x = a) :
    (l.filter f).head? = some a := by
  induction l with
  | nil =>
    obtain ⟨x, hx, -⟩ := hmem
    exact absurd hx (List.not_mem_nil x)
  | cons b t ih =>
    by_cases hb : f b = true
    · rw [List.filter_cons_of_pos hb, hall b (List.mem_cons_self b t) hb]
      rfl
    · rw [List.filter_cons_of_neg hb]
      apply ih
      · obtain ⟨x, hx, hfx⟩ := hmem
        rcases List.mem_cons.mp hx with rfl | hx2
        · exact absurd hfx hb
        · exact ⟨x, hx2, hfx⟩
      · intro x hx hfx
        exact hall x (List.mem_cons_of_mem b hx) hfx

theorem sum_flatMap_int {α : Type} (l : List α) (f : α → List Int) :
    (l.flatMap f).sum = (l.map (fun x => (f x).sum)).sum := by
  induction l with
  | nil => rfl
  | cons a t ih => simp [List.flatMap_cons, ih]

theorem sum_map_filter_of_unique (ps : List Product) (pid : Nat)
    (hn : (ps.map (fun p => p.id)).Nodup) (f : Product → Int) :
    ((ps.filter (fun p => p.id == pid && p.deletedAt.isNone)).map f).sum =
      (match (ps.filter (fun p => p.id == pid && p.deletedAt.isNone)).head? with
       | none => 0
       | some p => f p) := by
  induction ps with
  | nil => rfl
  | cons a t ih =>
    rw [List.map_cons, List.nodup_cons] at hn
    obtain ⟨hna, hnt⟩ := hn
    by_cases hb : (a.id == pid && a.deletedAt.isNone) = true
    · have hpid : a.id = pid := by
        rw [Bool.and_eq_true, beq_iff_eq] at hb
        exact hb.1
      have ht : t.filter (fun p => p.id == pid && p.deletedAt.isNone) = [] := by
        rw [List.filter_eq_nil_iff]
        intro x hx hcontra
        rw [Bool.and_eq_true, beq_iff_eq] at hcontra
        exact hna (List.mem_map.mpr ⟨x, hx, by rw [hcontra.1, hpid]⟩)
      rw [@List.filter_cons_of_pos _ (fun p => p.id == pid && p.deletedAt.isNone)
        a t hb, ht]
      simp
    · rw [@List.filter_cons_of_neg _ (fun p => p.id == pid && p.deletedAt.isNone)
        a t hb]
      exact ih hnt

theorem lookup_none_of_fresh (db : DB) (pid : Nat) (wid : String)
    (hfresh : ∀ i : Inventory, i ∈ db.inventory →
      ¬(i.productId = pid ∧ i.warehouseId = wid)) :
    getInventoryByProductAndWarehouse db pid wid = none := by
  unfold getInventoryByProductAndWarehouse
  have h : db.inventory.filter
      (fun i => i.productId == pid && i.warehouseId == wid) = [] := by
    rw [List.filter_eq_nil_iff]
    intro i hi hcontra
    rw [Bool.and_eq_true, beq_iff_eq, beq_iff_eq] at hcontra
    exact hfresh i hi hcontra
  rw [h]
  rfl

theorem lookup_of_base_row (db : DB) (pid : Nat) (wid : String)
    (base : List Inventory) (row : Inventory)
    (h1 : db.inventory = base ++ [row])
    (h2 : row.productId = pid) (h3 : row.warehouseId = wid)
    (h4 : ∀ i : Inventory, i ∈ base → ¬(i.productId = pid ∧ i.warehouseId = wid)) :
    getInventoryByProductAndWarehouse db pid wid = some row := by
  unfold getInventoryByProductAndWarehouse
  rw [h1, List.filter_append]
  have hb : base.filter (fun i => i.productId == pid && i.warehouseId == wid) = [] := by
    rw [List.filter_eq_nil_iff]
    intro i hi hcontra
    rw [Bool.and_eq_true, beq_iff_eq, beq_iff_eq] at hcontra
    exact h4 i hi hcontra
  rw [hb]
  simp [h2, h3]

theorem sumIN_cons (d : Direction) (q : Int) (rest : List (Direction × Int)) :
    sumIN ((d, q) :: rest) = (if d = Direction.IN then q else 0) + sumIN rest := by
  unfold sumIN
  cases d <;> simp [List.filter_cons]

theorem sumOUT_cons (d : Direction) (q : Int) (rest : List (Direction × Int)) :
    sumOUT ((d, q) :: rest) = (if d = Direction.OUT then q else 0) + sumOUT rest := by
  unfold sumOUT
  cases d <;> simp [List.filter_cons]

/-! ## Helper lemmas: the ledger applier -/

theorem lookup_appendLedger (db : DB) (m : InsertStockMovement)
    (pid : Nat) (wid : String) :
    getInventoryByProductAndWarehouse (appendLedger db m) pid wid =
      getInventoryByProductAndWarehouse db pid wid := rfl

theorem createStockMovement_ledger (db : DB) (m : InsertStockMovement) :
    (createStockMovement db m).1.stockMovements =
      db.stockMovements ++ [(createStockMovement db m).2] := by
  unfold createStockMovement
  rw [lookup_appendLedger]
  cases getInventoryByProductAndWarehouse db m.productId m.warehouseId with
  | some inv => rfl
  | none =>
    dsimp only
    by_cases h : m.direction = Direction.IN
    · rw [if_pos h]
      rfl
    · rw [if_neg h]
      rfl

theorem createStockMovement_step_existing (db : DB) (d : Direction) (q : Int)
    (pid : Nat) (wid : String) (base : List Inventory) (row : Inventory)
    (h1 : db.inventory = base ++ [row])
    (h2 : row.productId = pid) (h3 : row.warehouseId = wid)
    (h4 : ∀ i : Inventory, i ∈ base → ¬(i.productId = pid ∧ i.warehouseId = wid))
    (h5 : ∀ i : Inventory, i ∈ base → i.id ≠ row.id) :
    (createStockMovement db
        { productId := pid, warehouseId := wid, direction := d
          quantity := q }).1.inventory =
      base ++
        [{ row with
             quantity := row.quantity + (if d = Direction.IN then q else -q)
             updatedAt := db.clock + 1 }] := by
  have hlook : getInventoryByProductAndWarehouse db pid wid = some row :=
    lookup_of_base_row db pid wid base row h1 h2 h3 h4
  unfold createStockMovement
  rw [lookup_appendLedger, hlook]
  show ((appendLedger db _).inventory.map _) = _
  rw [show (appendLedger db
      { productId := pid, warehouseId := wid, direction := d
        quantity := q }).inventory = db.inventory from rfl, h1, List.map_append]
  congr 1
  · conv_rhs => rw [← List.map_id base]
    apply List.map_congr_left
    intro i hi
    rw [if_neg (by simpa using h5 i hi)]
    rfl
  · simp only [List.map_cons, List.map_nil]
    rw [if_pos (beq_self_eq_true row.id)]
    rfl

theorem createStockMovement_step_fresh_in (db : DB) (q : Int)
    (pid : Nat) (wid : String)
    (hl : getInventoryByProductAndWarehouse db pid wid = none) :
    (createStockMovement db
        { productId := pid, warehouseId := wid, direction := Direction.IN
          quantity := q }).1.inventory =
      db.inventory ++
        [{ id := db.nextId + 1, productId := pid, warehouseId := wid
           quantity := q, reservedQuantity := 0, createdAt := db.clock + 1
           updatedAt := db.clock + 1 }] := by
  unfold createStockMovement
  rw [lookup_appendLedger, hl, if_pos rfl]
  rfl

theorem createStockMovement_step_fresh_out (db : DB) (d : Direction) (q : Int)
    (pid : Nat) (wid : String)
    (hl : getInventoryByProductAndWarehouse db pid wid = none)
    (hout : ¬d = Direction.IN) :
    (createStockMovement db
        { productId := pid, warehouseId := wid, direction := d
          quantity := q }).1.inventory = db.inventory := by
  unfold createStockMovement
  rw [lookup_appendLedger, hl]
  dsimp only
  rw [if_neg hout]
  rfl

theorem applyMovements_loop (pid : Nat) (wid : String)
    (ms : List (Direction × Int)) :
    ∀ (db : DB) (row : Inventory) (base : List Inventory),
      db.inventory = base ++ [row] →
      row.productId = pid → row.warehouseId = wid →
      (∀ i : Inventory, i ∈ base → ¬(i.productId = pid ∧ i.warehouseId = wid)) →
      (∀ i : Inventory, i ∈ base → i.id ≠ row.id) →
      ∃ row2 : Inventory,
        (applyMovements db pid wid ms).inventory = base ++ [row2] ∧
        row2.productId = pid ∧ row2.warehouseId = wid ∧ row2.id = row.id ∧
        row2.quantity = row.quantity + (sumIN ms - sumOUT ms) := by
  induction ms with
  | nil =>
    intro db row base h1 h2 h3 h4 h5
    exact ⟨row, h1, h2, h3, rfl, by simp [sumIN, sumOUT]⟩
  | cons m rest ih =>
    obtain ⟨d, q⟩ := m
    intro db row base h1 h2 h3 h4 h5
    rw [applyMovements]
    obtain ⟨row2, g1, g2, g3, g4, g5⟩ := ih
      (createStockMovement db
        { productId := pid, warehouseId := wid, direction := d
          quantity := q }).1
      { row with
          quantity := row.quantity + (if d = Direction.IN then q else -q)
          updatedAt := db.clock + 1 }
      base
      (createStockMovement_step_existing db d q pid wid base row h1 h2 h3 h4 h5)
      h2 h3 h4 h5
    refine ⟨row2, g1, g2, g3, g4, ?_⟩
    rw [g5, sumIN_cons, sumOUT_cons]
    cases d <;> simp <;> ring

theorem lookup_congr (db1 db2 : DB) (h : db1.inventory = db2.inventory)
    (pid : Nat) (wid : String) :
    getInventoryByProductAndWarehouse db1 pid wid =
      getInventoryByProductAndWarehouse db2 pid wid := by
  unfold getInventoryByProductAndWarehouse
  rw [h]

theorem deleteProduct_marks (db : DB) (id : Nat) :
    ∀ p : Product, p ∈ (deleteProduct db id).1.products → p.id = id →
      ¬p.deletedAt = none := by
  intro p hp heq
  unfold deleteProduct at hp
  rw [List.mem_map] at hp
  obtain ⟨x, hx, hfx⟩ := hp
  by_cases h : (x.id == id) = true
  · rw [if_pos h] at hfx
    rw [← hfx]
    simp
  · rw [if_neg h] at hfx
    rw [beq_iff_eq] at h
    rw [← hfx] at heq
    exact absurd heq h

/-! ## Claim theorems -/

/-- C1: starting from a store with no balance row for the (product,
warehouse) pair, any sequence of `recordMovement` calls for that pair whose
first movement is an IN leaves a balance row whose quantity is exactly
`sum(IN quantities) - sum(OUT quantities)` — no floor at zero, so the stored
quantity is negative whenever the OUT total exceeds the IN total, and the
movements are accepted rather than rejected. -/
theorem recordMovement_balance_is_signed_sum
    (db : DB) (pid : Nat) (wid : String) (q0 : Int)
    (rest : List (Direction × Int))
    (hfresh : ∀ i : Inventory, i ∈ db.inventory →
      ¬(i.productId = pid ∧ i.warehouseId = wid))
    (hids : ∀ i : Inventory, i ∈ db.inventory → i.id < db.nextId)
    (_hpos : 0 < q0 ∧ ∀ m ∈ rest, 0 < m.2) :
    ∃ inv : Inventory,
      getInventoryByProductAndWarehouse
          (applyMovements db pid wid ((Direction.IN, q0) :: rest)) pid wid
        = some inv ∧
      inv.quantity =
        sumIN ((Direction.IN, q0) :: rest) -
          sumOUT ((Direction.IN, q0) :: rest) := by
  have hl0 : getInventoryByProductAndWarehouse db pid wid = none :=
    lookup_none_of_fresh db pid wid hfresh
  rw [applyMovements]
  obtain ⟨row2, g1, g2, g3, g4, g5⟩ := applyMovements_loop pid wid rest
    (createStockMovement db
      { productId := pid, warehouseId := wid, direction := Direction.IN
        quantity := q0 }).1
    { id := db.nextId + 1, productId := pid, warehouseId := wid
      quantity := q0, reservedQuantity := 0, createdAt := db.clock + 1
      updatedAt := db.clock + 1 }
    db.inventory
    (createStockMovement_step_fresh_in db q0 pid wid hl0)
    rfl rfl hfresh
    (fun i hi => by
      show i.id ≠ db.nextId + 1
      have h := hids i hi
      omega)
  refine ⟨row2, lookup_of_base_row _ pid wid db.inventory row2 g1 g2 g3 hfresh, ?_⟩
  rw [g5, sumIN_cons, sumOUT_cons]
  simp
  ring

/-- Witness for C1: the spec scenario IN 10, OUT 3, OUT 20 on a fresh pair
leaves a balance of `sum(IN) - sum(OUT) = -13`, accepted, not floored. -/
theorem recordMovement_balance_is_signed_sum_witness :
    (∃ inv : Inventory,
      getInventoryByProductAndWarehouse
          (applyMovements emptyDB 1 "W1"
            [(Direction.IN, 10), (Direction.OUT, 3), (Direction.OUT, 20)])
          1 "W1"
        = some inv ∧
      inv.quantity =
        sumIN [(Direction.IN, 10), (Direction.OUT, 3), (Direction.OUT, 20)] -
          sumOUT [(Direction.IN, 10), (Direction.OUT, 3), (Direction.OUT, 20)]) ∧
    sumIN [(Direction.IN, 10), (Direction.OUT, 3), (Direction.OUT, 20)] -
        sumOUT [(Direction.IN, 10), (Direction.OUT, 3), (Direction.OUT, 20)]
      = -13 :=
  ⟨recordMovement_balance_is_signed_sum emptyDB 1 "W1" 10
      [(Direction.OUT, 3), (Direction.OUT, 20)]
      (fun i hi => absurd hi (List.not_mem_nil i))
      (fun i hi => absurd hi (List.not_mem_nil i))
      ⟨by decide, by decide⟩,
   by decide⟩

/-- C2: an OUT movement for a (product, warehouse) pair with no balance row
appends the ledger entry but neither creates nor modifies any balance row:
the inventory table is unchanged and the balance lookup still returns
nothing. -/
theorem out_movement_on_missing_balance
    (db : DB) (pid : Nat) (wid : String) (q : Int)
    (hfresh : getInventoryByProductAndWarehouse db pid wid = none) :
    (createStockMovement db
        { productId := pid, warehouseId := wid, direction := Direction.OUT
          quantity := q }).1.stockMovements
      = db.stockMovements ++
        [(createStockMovement db
            { productId := pid, warehouseId := wid, direction := Direction.OUT
              quantity := q }).2] ∧
    (createStockMovement db
        { productId := pid, warehouseId := wid, direction := Direction.OUT
          quantity := q }).1.inventory = db.inventory ∧
    getInventoryByProductAndWarehouse
        (createStockMovement db
          { productId := pid, warehouseId := wid, direction := Direction.OUT
            quantity := q }).1 pid wid = none := by
  have hinv := createStockMovement_step_fresh_out db Direction.OUT q pid wid
    hfresh (by decide)
  refine ⟨createStockMovement_ledger db _, hinv, ?_⟩
  rw [lookup_congr _ db hinv pid wid]
  exact hfresh

/-- Witness for C2: OUT 5 against the empty store records the movement but
leaves the balance table empty and the balance lookup empty. -/
theorem out_movement_on_missing_balance_witness :
    (createStockMovement emptyDB
        { productId := 1, warehouseId := "W1", direction := Direction.OUT
          quantity := 5 }).1.inventory = emptyDB.inventory ∧
    getInventoryByProductAndWarehouse
        (createStockMovement emptyDB
          { productId := 1, warehouseId := "W1", direction := Direction.OUT
            quantity := 5 }).1 1 "W1" = none :=
  ⟨(out_movement_on_missing_balance emptyDB 1 "W1" 5 (by decide)).2.1,
   (out_movement_on_missing_balance emptyDB 1 "W1" 5 (by decide)).2.2⟩

/-- C3: after `deleteProduct`, the deleted id is indistinguishable from a
nonexistent id through the public read contract: `getProduct` returns
absence, and no product with that id appears in `getAllProducts` or in
`searchProducts` for any query. -/
theorem softDeleted_indistinguishable (db : DB) (id : Nat) :
    getProduct (deleteProduct db id).1 id = none ∧
    (∀ p : Product, p ∈ getAllProducts (deleteProduct db id).1 → p.id ≠ id) ∧
    (∀ q : String, ∀ p : Product,
      p ∈ searchProducts (deleteProduct db id).1 q → p.id ≠ id) := by
  refine ⟨?_, ?_, ?_⟩
  · unfold getProduct
    have h : (deleteProduct db id).1.products.filter
        (fun p => p.id == id && p.deletedAt.isNone) = [] := by
      rw [List.filter_eq_nil_iff]
      intro p hp hcontra
      rw [Bool.and_eq_true, beq_iff_eq, Option.isNone_iff_eq_none] at hcontra
      exact deleteProduct_marks db id p hp hcontra.1 hcontra.2
    rw [h]
    rfl
  · intro p hp heq
    unfold getAllProducts at hp
    rw [List.mem_insertionSort, List.mem_filter,
      Option.isNone_iff_eq_none] at hp
    exact deleteProduct_marks db id p hp.1 heq hp.2
  · intro q p hp heq
    unfold searchProducts at hp
    rw [List.mem_insertionSort, List.mem_filter, Bool.and_eq_true,
      Option.isNone_iff_eq_none] at hp
    exact deleteProduct_marks db id p hp.1 heq hp.2.1

/-- Witness for C3: soft-deleting product 1 makes `getProduct 1` return
absence and removes "ABC Widget" from the "abc" search results. -/
theorem softDeleted_indistinguishable_witness :
    getProduct (deleteProduct wdbSearch 1).1 1 = none ∧
    wProduct ∉ searchProducts (deleteProduct wdbSearch 1).1 "abc" :=
  ⟨(softDeleted_indistinguishable wdbSearch 1).1,
   fun h => (softDeleted_indistinguishable wdbSearch 1).2.2 "abc" wProduct h rfl⟩

/-- C4 (counterexample to the claim as stated): for the query `"%"`, the
code returns "ABC Widget" / "X-100" although neither its name nor its SKU
contains `%` as a substring — the ILIKE pattern `'%' || query || '%'` gives
`LIKE` wildcards inside the query their special meaning, so `searchProducts`
is not substring matching for every query string. -/
theorem searchProducts_substring_counterexample :
    wProduct ∈ searchProducts wdbSearch "%" ∧
      ¬substrCI "%" wProduct.name ∧ ¬substrCI "%" wProduct.sku := by
  refine ⟨?_, by decide, by decide⟩
  decide

/-- C4 (amended): for every query containing no `LIKE` wildcard (`%`, `_`)
and no escape character (`\`), `searchProducts` returns exactly the
non-deleted products whose name or SKU contains the query as a
case-insensitive substring, ordered by product name. -/
theorem searchProducts_substring_exact (db : DB) (q : String)
    (hq : noWildcards q = true) :
    (∀ p : Product, p ∈ searchProducts db q ↔
        p ∈ db.products ∧ p.deletedAt = none ∧
          (substrCI q p.name ∨ substrCI q p.sku)) ∧
    (searchProducts db q).Sorted prodByName :=
  ⟨fun p => mem_searchProducts db q p hq,
   List.sorted_insertionSort prodByName _⟩

/-- Witness for the amended C4: "ABC Widget" (SKU "X-100") is returned for
the query "abc" and is not returned for the query "zzz". -/
theorem searchProducts_substring_exact_witness :
    wProduct ∈ searchProducts wdbSearch "abc" ∧
      wProduct ∉ searchProducts wdbSearch "zzz" := by
  constructor
  · exact ((searchProducts_substring_exact wdbSearch "abc" (by decide)).1
      wProduct).mpr ⟨by decide, by decide, Or.inl (by decide)⟩
  · intro h
    have hm := ((searchProducts_substring_exact wdbSearch "zzz" (by decide)).1
      wProduct).mp h
    exact absurd hm (by decide)

/-- C5 (counterexample to the claim as stated): the query does not return
the stored (product, balance) pairs — `SELECT p.*, i.*` collapses the
duplicate `id`, `created_at`, `updated_at` columns to the inventory row's
values, so the returned product carries the balance row's id: at `wdbLow`
the true pair (product id 1, balance id 10) is absent, and the one pair
actually returned has product.id = inventory.id = 10. -/
theorem getLowStockItems_counterexample :
    (wProduct, wBalance7) ∉ getLowStockItems wdbLow ∧
      getLowStockItems wdbLow = [(rowProduct wProduct wBalance7, wBalance7)] ∧
      (rowProduct wProduct wBalance7).id = wBalance7.id ∧
      wProduct.id ≠ wBalance7.id :=
  ⟨by decide, by decide, by decide, by decide⟩

/-- C5 (amended): the low-stock query returns one pair per (product,
balance) combination with a non-deleted product and balance quantity at
most the product's reorder point, ordered by product name — except that
each returned product object is rebuilt from the flat joined row, so its
id, createdAt and updatedAt are the balance row's values (the duplicate
columns of `SELECT p.*, i.*` collapse, the inventory's winning); all other
product columns are the product's own. -/
theorem getLowStockItems_exact (db : DB) :
    (∀ pr : Product × Inventory, pr ∈ getLowStockItems db ↔
        ∃ p : Product, p ∈ db.products ∧ pr.2 ∈ db.inventory ∧
          pr.2.productId = p.id ∧ p.deletedAt = none ∧
          (∃ r : Int, p.reorderPoint = some r ∧ pr.2.quantity ≤ r) ∧
          pr.1 = rowProduct p pr.2) ∧
    (getLowStockItems db).Sorted pairByName := by
  refine ⟨fun pr => mem_getLowStockItems db pr, ?_⟩
  unfold getLowStockItems
  exact List.Pairwise.map _ (fun a b hab => hab)
    (List.sorted_insertionSort pairByName (lowStockRows db))

/-- Witness for the amended C5: with quantity 7 and reorder point 10 the
rebuilt pair is returned; once the quantity is 15 nothing is. -/
theorem getLowStockItems_exact_witness :
    (rowProduct wProduct wBalance7, wBalance7) ∈ getLowStockItems wdbLow ∧
      (rowProduct wProduct wBalance15, wBalance15) ∉ getLowStockItems wdbHigh :=
  ⟨((getLowStockItems_exact wdbLow).1
        (rowProduct wProduct wBalance7, wBalance7)).mpr
      ⟨wProduct, by decide, by decide, by decide, by decide,
        ⟨10, by decide, by decide⟩, by decide⟩,
   by decide⟩

/-- C10: a product whose reorder point is unset never appears in the
low-stock results, regardless of its balance quantity: the SQL comparison
`quantity <= reorder_point` is not satisfied when the reorder point is NULL. -/
theorem lowStock_requires_reorderPoint (db : DB) (pr : Product × Inventory)
    (h : pr ∈ getLowStockItems db) : pr.1.reorderPoint ≠ none := by
  obtain ⟨p, -, -, -, -, ⟨r, hr, -⟩, hpr⟩ := (mem_getLowStockItems db pr).mp h
  rw [hpr]
  show p.reorderPoint ≠ none
  rw [hr]
  simp

/-- Witness for C10, applying the theorem at the one listed low-stock pair
of `wdbLow` (the null-reorder-point product with quantity -100 is absent). -/
theorem lowStock_requires_reorderPoint_witness :
    (rowProduct wProduct wBalance7, wBalance7).1.reorderPoint ≠ none :=
  lowStock_requires_reorderPoint wdbLow
    (rowProduct wProduct wBalance7, wBalance7) (by decide)

/-- A row transformed by `updateProduct` keeps its id. -/
theorem updateRow_id (u : ProductUpdate) (now : Nat) (id : Nat) (p : Product) :
    (if p.id == id then applyProductUpdate u now p else p).id = p.id := by
  by_cases h : (p.id == id) = true
  · rw [if_pos h]
    rfl
  · rw [if_neg h]

/-- C9: `updateProduct` applies no soft-delete filter: it returns absence
exactly when no row with the id exists at all, and whenever a (possibly
soft-deleted) row exists it merges the fields, stamps `updatedAt` with the
current clock, and returns the updated record. -/
theorem updateProduct_ignores_soft_delete (db : DB) (id : Nat)
    (u : ProductUpdate) :
    ((updateProduct db id u).2 = none ↔
      ∀ p : Product, p ∈ db.products → p.id ≠ id) ∧
    (∀ p : Product, p ∈ db.products → p.id = id →
      (∀ p2 : Product, p2 ∈ db.products → p2.id = id → p2 = p) →
      (updateProduct db id u).2 = some (applyProductUpdate u db.clock p)) := by
  constructor
  · show ((db.products.map
        (fun p => if p.id == id then applyProductUpdate u db.clock p else p)).filter
        (fun p => p.id == id)).head? = none ↔ _
    rw [List.head?_eq_none_iff, List.filter_eq_nil_iff]
    constructor
    · intro h p hp heq
      have hx := h _ (List.mem_map_of_mem _ hp)
      rw [updateRow_id] at hx
      apply hx
      rw [beq_iff_eq]
      exact heq
    · intro h x hx
      rw [List.mem_map] at hx
      obtain ⟨p, hp, rfl⟩ := hx
      intro hcontra
      rw [updateRow_id] at hcontra
      exact h p hp (beq_iff_eq.mp hcontra)
  · intro p hp hpid huniq
    show ((db.products.map
        (fun p => if p.id == id then applyProductUpdate u db.clock p else p)).filter
        (fun p => p.id == id)).head? = _
    apply head_filter_eq_some
    · refine ⟨applyProductUpdate u db.clock p, ?_, ?_⟩
      · rw [List.mem_map]
        exact ⟨p, hp, by rw [if_pos (beq_iff_eq.mpr hpid)]⟩
      · show ((applyProductUpdate u db.clock p).id == id) = true
        rw [show (applyProductUpdate u db.clock p).id = p.id from rfl,
          beq_iff_eq]
        exact hpid
    · intro x hx hfx
      rw [List.mem_map] at hx
      obtain ⟨p2, hp2, rfl⟩ := hx
      rw [updateRow_id] at hfx
      rw [huniq p2 hp2 (beq_iff_eq.mp hfx)]
      rw [if_pos (beq_iff_eq.mpr hpid)]

/-- Witness for C9: updating the soft-deleted product (invisible to
`getProduct`) still succeeds and returns the merged, restamped record. -/
theorem updateProduct_ignores_soft_delete_witness :
    getProduct wdbDeleted 2 = none ∧
      (updateProduct wdbDeleted 2 wRename).2
        = some (applyProductUpdate wRename wdbDeleted.clock wDeletedProduct) :=
  ⟨by decide,
   (updateProduct_ignores_soft_delete wdbDeleted 2 wRename).2 wDeletedProduct
     (by decide) (by decide) (by decide)⟩

/-- C7: `getStockMovementsByProduct` and `getStockMovementsByWarehouse`
return exactly the matching ledger entries ordered newest-first by creation
timestamp, and `getRecentStockMovements limit` is newest-first with at most
`limit` entries, the omitted limit defaulting to 10.  (All three are pure
functions of the store: they read the ledger and change nothing.) -/
theorem movement_reads_ordered (db : DB) (pid : Nat) (wid : String)
    (limit : Nat) :
    ((getStockMovementsByProduct db pid).Sorted movNewestFirst ∧
      List.Perm (getStockMovementsByProduct db pid)
        (db.stockMovements.filter (fun s => s.productId == pid))) ∧
    ((getStockMovementsByWarehouse db wid).Sorted movNewestFirst ∧
      List.Perm (getStockMovementsByWarehouse db wid)
        (db.stockMovements.filter (fun s => s.warehouseId == wid))) ∧
    (getRecentStockMovements db limit).Sorted movNewestFirst ∧
    (getRecentStockMovements db limit).length ≤ limit ∧
    getRecentStockMovementsDefault db = getRecentStockMovements db 10 := by
  refine ⟨⟨List.sorted_insertionSort _ _, List.perm_insertionSort _ _⟩,
    ⟨List.sorted_insertionSort _ _, List.perm_insertionSort _ _⟩, ?_, ?_, rfl⟩
  · exact List.Pairwise.sublist (List.take_sublist _ _)
      (List.sorted_insertionSort _ _)
  · exact List.length_take_le _ _

/-- One public operation never removes or rewrites an existing ledger entry:
it leaves `stockMovements` unchanged unless it is `createStockMovement`,
which appends. -/
theorem stepOp_ledger (db : DB) (op : Op) :
    db.stockMovements <+: (stepOp db op).stockMovements ∧
      (op.isCreateStockMovement = false →
        (stepOp db op).stockMovements = db.stockMovements) := by
  cases op
  case createStockMovement m =>
    refine ⟨⟨[(createStockMovement db m).2],
      (createStockMovement_ledger db m).symm⟩, ?_⟩
    intro h
    simp [Op.isCreateStockMovement] at h
  all_goals exact ⟨List.prefix_refl _, fun _ => rfl⟩

/-- C6: the stock-movement ledger is append-only across every sequence of
public storage operations: the old ledger is a prefix of the new one (each
old entry survives unchanged, in place), and a sequence containing no
`createStockMovement` leaves the ledger exactly as it was. -/
theorem ledger_append_only (db : DB) (ops : List Op) :
    db.stockMovements <+: (applyOps db ops).stockMovements ∧
      ((∀ op ∈ ops, op.isCreateStockMovement = false) →
        (applyOps db ops).stockMovements = db.stockMovements) := by
  induction ops generalizing db with
  | nil => exact ⟨List.prefix_refl _, fun _ => rfl⟩
  | cons op rest ih =>
    obtain ⟨h1, h2⟩ := stepOp_ledger db op
    obtain ⟨ih1, ih2⟩ := ih (stepOp db op)
    rw [applyOps]
    refine ⟨h1.trans ih1, ?_⟩
    intro hall
    rw [ih2 (fun o ho => hall o (List.mem_cons_of_mem op ho)),
      h2 (hall op (List.mem_cons_self op rest))]

/-- Witness for C6 on concrete operation sequences: with a movement the old
ledger is a prefix of the new; without one the ledger is untouched. -/
theorem ledger_append_only_witness :
    wdbAgg.stockMovements <+: (applyOps wdbAgg wOpsMove).stockMovements ∧
      (applyOps wdbAgg wOpsNoMove).stockMovements = wdbAgg.stockMovements :=
  ⟨(ledger_append_only wdbAgg wOpsMove).1,
   (ledger_append_only wdbAgg wOpsNoMove).2 (by decide)⟩

/-- C8: when product ids are unique, the total-inventory-value query equals
the sum over all balance rows of `quantity * cost` of the non-deleted
product the row refers to; balance rows of soft-deleted (or missing)
products contribute nothing. -/
theorem getInventoryValue_spec (db : DB)
    (hn : (db.products.map (fun p => p.id)).Nodup) :
    getInventoryValue db = inventoryValueSpec db := by
  unfold getInventoryValue invValueRows inventoryValueSpec
  rw [List.map_flatMap, sum_flatMap_int]
  refine congrArg List.sum (List.map_congr_left ?_)
  intro i hi
  rw [List.map_map, sum_map_filter_of_unique db.products i.productId hn]
  unfold getProduct
  cases hh : (db.products.filter
      (fun p => p.id == i.productId && p.deletedAt.isNone)).head? with
  | none => rfl
  | some p =>
    cases hc : p.cost with
    | none => simp [hc]
    | some c => simp [hc]

/-- Witness for C8: 7 units at cost 25 for the live product count (175); the
soft-deleted product's 4 units at cost 100 contribute nothing. -/
theorem getInventoryValue_spec_witness :
    getInventoryValue wdbAgg = inventoryValueSpec wdbAgg ∧
      getInventoryValue wdbAgg = 175 :=
  ⟨getInventoryValue_spec wdbAgg (by decide), by decide⟩

end WarehousePro
